import Mathlib

/-!
Shallow embedding of the rs-w3r command-line HTTP tool (src/main.rs,
src/client.rs): configuration model and merge, request assembly, the
retry/backoff engine, the response post-processing pipeline (JSON path
query, formatting) and the verbose request trace / output routing.

Rust machine integers are modelled as `Nat` (`u16`, `u32`, `u64`, `usize`
values stay far below their bounds in every operation modelled here);
`f64` retry delays are modelled as `ℚ` — the only arithmetic performed on
them is multiplication by powers of two, which is exact in binary floating
point absent overflow. Strings are Lean `String`s; Rust byte positions
returned by `str::find` on a valid UTF-8 string agree with character
positions of the same occurrence for slicing purposes, so the evaluator is
modelled on `List Char`. Fallible Rust functions returning
`Result<T, Box<dyn Error>>` are modelled as `Except String T`.
-/

namespace W3r

/-! ## JSON values (serde_json::Value) -/

/-- Model of `serde_json::Value`. Numbers are modelled as rationals; no
operation embedded here performs numeric arithmetic on them. Objects are
association lists with unique keys (as produced by the serde map). -/
inductive Value where
  | null : Value
  | bool (b : Bool) : Value
  | num (q : ℚ) : Value
  | str (s : String) : Value
  | arr (items : List Value) : Value
  | obj (fields : List (String × Value)) : Value

/-- Model of `serde_json::Value::get` with a string key: field lookup on an
object, `None` on every other variant. -/
def Value.getField : Value → String → Option Value
  | .obj fields, key => (fields.find? (fun p => p.1 == key)).map (·.2)
  | _, _ => none

/-- Model of `serde_json::Value::get` with a `usize` index: element lookup
on an array, `None` on every other variant. -/
def Value.getIndex : Value → Nat → Option Value
  | .arr items, i => items.get? i
  | _, _ => none

/-! ## Path-query evaluator (client.rs `extract_json_path`,
`process_json_path_part`) -/

/-- Model of Rust `str::trim` at the character level (the whitespace set of
Lean's `Char.isWhitespace` agrees with Rust on the ASCII whitespace
actually reachable from command-line path strings). -/
def rustTrim (cs : List Char) : List Char :=
  ((cs.dropWhile Char.isWhitespace).reverse.dropWhile Char.isWhitespace).reverse

/-- Model of Rust `str::split(c)`: split on every occurrence of `c`,
keeping empty pieces (`"".split(c)` yields one empty piece). -/
def splitOnChar (c : Char) : List Char → List (List Char)
  | [] => [[]]
  | x :: rest =>
    let r := splitOnChar c rest
    if x = c then [] :: r
    else
      match r with
      | [] => [[x]]
      | h :: t => (x :: h) :: t

/-- Model of Rust `str::parse::<usize>()` restricted to the strings the
evaluator feeds it: an optional leading plus sign, then one or more ASCII
digits, value below `usize::MAX + 1 = 2 ^ 64` (64-bit target). Anything
else is a parse failure. -/
def parseUsize (cs : List Char) : Option Nat :=
  let ds := match cs with
    | c :: rest => if c = '+' then rest else cs
    | [] => cs
  if ds ≠ [] ∧ ds.all Char.isDigit then
    let n := ds.foldl (fun acc c => acc * 10 + (c.toNat - 48)) 0
    if n < 2 ^ 64 then some n else none
  else none

/-- Model of `process_json_path_part` (client.rs:723-743). A segment with a
`[` whose bracketed prefix parses as a `usize` does field access (when the
field name is nonempty) followed by index access; every other shape falls
back to looking the whole segment text up as a field name. Absent values
become `Value.null` (`unwrap_or(Value::Null)`); every branch returns `Ok`. -/
def process_json_path_part (json : Value) (part : String) : Except String Value :=
  match (part.toList).findIdx? (· == '[') with
  | some bracketPos =>
    let indexPart := (part.toList).drop (bracketPos + 1)
    match indexPart.findIdx? (· == ']') with
    | some closeBracket =>
      match parseUsize (indexPart.take closeBracket) with
      | some index =>
        let fieldName := (part.toList).take bracketPos
        let result := if fieldName.isEmpty then json
          else (json.getField (String.mk fieldName)).getD .null
        .ok ((result.getIndex index).getD .null)
      | none => .ok ((json.getField part).getD .null)
    | none => .ok ((json.getField part).getD .null)
  | none => .ok ((json.getField part).getD .null)

/-- Model of `extract_json_path` (client.rs:705-720): trim, return the root
unchanged on `"."`, strip one leading dot (`strip_prefix`), split on dots,
drop empty segments, then fold `process_json_path_part` left to right. -/
def extract_json_path (json : Value) (path : String) : Except String Value :=
  let cs := rustTrim path.toList
  if cs = ['.'] then .ok json
  else
    let cs := match cs with
      | '.' :: rest => rest
      | other => other
    let parts := (splitOnChar '.' cs).filter (fun p => ¬p.isEmpty)
    parts.foldlM (fun j part => process_json_path_part j (String.mk part)) json

/-! ## Configuration model (client.rs `Config`, `ConfigPreset`,
main.rs `Args`) -/

/-- Model of `BasicAuthConfig` (client.rs:63-67). -/
structure BasicAuthConfig where
  user : String
  pass : String

/-- Model of `ProxyConfig` (client.rs:69-75). -/
structure ProxyConfig where
  host : String
  port : String
  user : Option String
  pass : Option String

/-- Model of `Config` (client.rs:77-98). `u32`/`u64` fields are `Nat`,
`f64` retry delay is `ℚ`. -/
structure Config where
  basic_auth : Option BasicAuthConfig
  cookies : Option (List String)
  dry_run : Bool
  form_data : Option String
  form : Option (List String)
  headers : Option (List String)
  json : Option String
  json_filter : Option String
  method : String
  output : Option String
  pretty_json : Bool
  proxy : Option ProxyConfig
  retry : Nat
  retry_delay : ℚ
  silent : Bool
  timeout : Nat
  timing : Bool
  url : String
  verbose : Bool

/-- Built-in default method (client.rs:22). -/
def DEFAULT_METHOD : String := "GET"

/-- Built-in default retry count (client.rs:19). -/
def DEFAULT_RETRY_COUNT : Nat := 0

/-- Built-in default retry base delay in seconds (client.rs:20). -/
def DEFAULT_RETRY_DELAY : ℚ := 1

/-- Built-in default timeout in seconds (client.rs:21). -/
def DEFAULT_TIMEOUT_SECS : Nat := 30

/-- Model of `impl Default for Config` (client.rs:128-152). -/
def Config.default : Config where
  basic_auth := none
  cookies := none
  dry_run := false
  form_data := none
  form := none
  headers := none
  json := none
  json_filter := none
  method := DEFAULT_METHOD
  output := none
  pretty_json := false
  proxy := none
  retry := DEFAULT_RETRY_COUNT
  retry_delay := DEFAULT_RETRY_DELAY
  silent := false
  timeout := DEFAULT_TIMEOUT_SECS
  timing := false
  url := ""
  verbose := false

/-- Model of `ConfigPreset` (client.rs:105-126): every field optional. -/
structure ConfigPreset where
  url : Option String := none
  method : Option String := none
  headers : Option (List String) := none
  timeout : Option Nat := none
  pretty_json : Option Bool := none
  timing : Option Bool := none
  verbose : Option Bool := none
  silent : Option Bool := none
  retry : Option Nat := none
  retry_delay : Option ℚ := none
  json : Option String := none
  json_filter : Option String := none
  form_data : Option String := none
  form : Option (List String) := none
  cookies : Option (List String) := none
  output : Option String := none
  dry_run : Option Bool := none
  basic_auth : Option BasicAuthConfig := none
  proxy : Option ProxyConfig := none

/-- Model of `create_config_from_preset` (client.rs:245-270): each preset
field, defaulted when absent. -/
def create_config_from_preset (preset : ConfigPreset) : Config where
  basic_auth := preset.basic_auth
  cookies := preset.cookies
  dry_run := preset.dry_run.getD false
  form_data := preset.form_data
  form := preset.form
  headers := preset.headers
  json := preset.json
  json_filter := preset.json_filter
  method := preset.method.getD DEFAULT_METHOD
  output := preset.output
  pretty_json := preset.pretty_json.getD false
  proxy := preset.proxy
  retry := preset.retry.getD DEFAULT_RETRY_COUNT
  retry_delay := preset.retry_delay.getD DEFAULT_RETRY_DELAY
  silent := preset.silent.getD false
  timeout := preset.timeout.getD DEFAULT_TIMEOUT_SECS
  timing := preset.timing.getD false
  url := preset.url.getD ""
  verbose := preset.verbose.getD false

/-- Model of the clap-parsed `Args` struct (main.rs:12-89) after parsing:
optional flags are `Option`, valued flags with a `default_value` hold that
default when the flag is omitted — and hold the same value when the flag is
passed explicitly with the default value, since clap hands the program only
the final parsed value. -/
structure ArgsModel where
  basic_user : Option String := none
  basic_pass : Option String := none
  config : Option String := none
  cookies : Option (List String) := none
  dry_run : Bool := false
  form_data : Option String := none
  form : Option (List String) := none
  headers : Option (List String) := none
  json : Option String := none
  json_filter : Option String := none
  method : String := DEFAULT_METHOD
  output : Option String := none
  preset : Option String := none
  pretty_json : Bool := false
  proxy_host : Option String := none
  proxy_port : Option String := none
  proxy_user : Option String := none
  proxy_pass : Option String := none
  retry : Nat := DEFAULT_RETRY_COUNT
  retry_delay : ℚ := DEFAULT_RETRY_DELAY
  silent : Bool := false
  timeout : Nat := DEFAULT_TIMEOUT_SECS
  timing : Bool := false
  url : Option String := none
  verbose : Bool := false

/-- Model of `apply_auth_config` (main.rs:137-144): both credentials must
be present. -/
def apply_auth_config (cfg : Config) (args : ArgsModel) : Config :=
  match args.basic_user, args.basic_pass with
  | some u, some p => { cfg with basic_auth := some ⟨u, p⟩ }
  | _, _ => cfg

/-- Model of `apply_data_config` (main.rs:147-163). -/
def apply_data_config (cfg : Config) (args : ArgsModel) : Config :=
  let cfg := match args.form_data with
    | some fd => { cfg with form_data := some fd }
    | none => cfg
  let cfg := match args.form with
    | some f => { cfg with form := some f }
    | none => cfg
  let cfg := match args.json with
    | some j => { cfg with json := some j }
    | none => cfg
  match args.json_filter with
  | some jf => { cfg with json_filter := some jf }
  | none => cfg

/-- Model of `apply_request_config` (main.rs:166-186): method and timeout
override only when the parsed value differs from the built-in default;
headers, cookies and url override whenever present. -/
def apply_request_config (cfg : Config) (args : ArgsModel) : Config :=
  let cfg := if args.method ≠ DEFAULT_METHOD then { cfg with method := args.method } else cfg
  let cfg := match args.headers with
    | some h => { cfg with headers := some h }
    | none => cfg
  let cfg := match args.cookies with
    | some c => { cfg with cookies := some c }
    | none => cfg
  let cfg := match args.url with
    | some u => { cfg with url := u }
    | none => cfg
  if args.timeout ≠ DEFAULT_TIMEOUT_SECS then { cfg with timeout := args.timeout } else cfg

/-- Model of `apply_proxy_config` (main.rs:189-198). -/
def apply_proxy_config (cfg : Config) (args : ArgsModel) : Config :=
  match args.proxy_host, args.proxy_port with
  | some h, some p =>
    { cfg with proxy := some ⟨h, p, args.proxy_user, args.proxy_pass⟩ }
  | _, _ => cfg

/-- Model of `apply_output_config` (main.rs:201-205). -/
def apply_output_config (cfg : Config) (args : ArgsModel) : Config :=
  match args.output with
  | some o => { cfg with output := some o }
  | none => cfg

/-- Model of `apply_retry_config` (main.rs:208-216): overrides only when
the parsed value differs from the built-in default. -/
def apply_retry_config (cfg : Config) (args : ArgsModel) : Config :=
  let cfg := if args.retry ≠ DEFAULT_RETRY_COUNT then { cfg with retry := args.retry } else cfg
  if args.retry_delay ≠ DEFAULT_RETRY_DELAY then { cfg with retry_delay := args.retry_delay } else cfg

/-- Model of `apply_flags` (main.rs:219-239): a set flag turns the option
on; an unset flag leaves the preset value alone (it can never turn one
off). -/
def apply_flags (cfg : Config) (args : ArgsModel) : Config :=
  let cfg := if args.dry_run then { cfg with dry_run := true } else cfg
  let cfg := if args.pretty_json then { cfg with pretty_json := true } else cfg
  let cfg := if args.silent then { cfg with silent := true } else cfg
  let cfg := if args.timing then { cfg with timing := true } else cfg
  if args.verbose then { cfg with verbose := true } else cfg

/-- Model of `apply_args_to_config` (main.rs:126-134): the seven override
passes, in source order. -/
def apply_args_to_config (cfg : Config) (args : ArgsModel) : Config :=
  apply_flags
    (apply_retry_config
      (apply_output_config
        (apply_proxy_config
          (apply_request_config
            (apply_data_config
              (apply_auth_config cfg args) args) args) args) args) args) args

/-! ## Retry engine (client.rs `execute_request_with_retry`,
`handle_retry_delay`, `handle_request_error_retry`,
`should_retry_for_status`) -/

/-- Outcome of one network attempt (`client.execute(retry_request)`): a
transport error or a received response, of which the retry engine inspects
only the status code. The attempt sequence is abstracted as an oracle from
the 1-indexed attempt number to its outcome. -/
inductive AttemptOutcome where
  | transportError (msg : String)
  | response (status : Nat)

/-- Model of `should_retry_for_status` (client.rs:598-603): a status is
retryable iff it lies in 500..=599 or equals 429 or 408. -/
def should_retry_for_status (statusCode : Nat) : Bool :=
  (500 ≤ statusCode && statusCode ≤ 599) || statusCode == 429 || statusCode == 408

/-- An outcome after which the loop retries (when attempts remain): any
transport error, or a response whose status is retryable. -/
def retryableOutcome : AttemptOutcome → Bool
  | .transportError _ => true
  | .response s => should_retry_for_status s

/-- Terminal result of the retry loop, carrying the total number of
attempts performed: a terminal response (returned as `Ok` by the source,
whatever its status) or a propagated transport error after exhausting all
attempts. -/
inductive RetryResult where
  | done (status : Nat) (attempts : Nat)
  | failed (msg : String) (attempts : Nat)
deriving DecidableEq

/-- Number of attempts a terminal result took. -/
def RetryResult.attempts : RetryResult → Nat
  | .done _ n => n
  | .failed _ n => n

/-- Model of the `loop` in `execute_request_with_retry` (client.rs:509-542)
together with the backoff computation shared by `handle_retry_delay`
(client.rs:570-581) and `handle_request_error_retry` (client.rs:584-595):
before each new attempt `current_attempt` is incremented; a retryable
outcome with attempts remaining sleeps
`retry_delay * 2 ^ (current_attempt - 1)` seconds
(`RETRY_BACKOFF_MULTIPLIER.powi(current_attempt.saturating_sub(1))`) and
loops; otherwise the loop terminates. The slept delays are collected in
order; `prevAttempts` is the source's `current_attempt` value before the
increment at the top of the loop body. -/
def retryLoop (oracle : Nat → AttemptOutcome) (maxAttempts : Nat) (retryDelay : ℚ)
    (prevAttempts : Nat) (delays : List ℚ) : List ℚ × RetryResult :=
  match oracle (prevAttempts + 1) with
  | .response status =>
    if h : should_retry_for_status status = true ∧ prevAttempts + 1 < maxAttempts then
      retryLoop oracle maxAttempts retryDelay (prevAttempts + 1)
        (delays ++ [retryDelay * 2 ^ prevAttempts])
    else
      (delays, .done status (prevAttempts + 1))
  | .transportError msg =>
    if h : prevAttempts + 1 < maxAttempts then
      retryLoop oracle maxAttempts retryDelay (prevAttempts + 1)
        (delays ++ [retryDelay * 2 ^ prevAttempts])
    else
      (delays, .failed msg (prevAttempts + 1))
termination_by maxAttempts - prevAttempts
decreasing_by
  · omega
  · omega

/-- Model of `execute_request_with_retry` (client.rs:500-543):
`max_attempts = config.retry + 1`, the loop starts with zero attempts made
and no delay slept. -/
def execute_request_with_retry (oracle : Nat → AttemptOutcome) (retry : Nat)
    (retryDelay : ℚ) : List ℚ × RetryResult :=
  retryLoop oracle (retry + 1) retryDelay 0 []

/-! ## Request assembly (client.rs `build_request`,
`create_request_builder`, method parsing) -/

/-- Characters the `http` crate accepts in an HTTP method token and in a
header name (digits, letters, and the token symbols
`!` `#` `$` `%` `&` apostrophe `*` `+` `-` `.` `^` `_` backquote `|` `~`,
listed by ASCII code). -/
def isTokenChar (c : Char) : Bool :=
  let n := c.toNat
  (48 ≤ n && n ≤ 57) || (65 ≤ n && n ≤ 90) || (97 ≤ n && n ≤ 122) ||
  n == 33 || n == 35 || n == 36 || n == 37 || n == 38 || n == 39 ||
  n == 42 || n == 43 || n == 45 || n == 46 || n == 94 || n == 95 ||
  n == 96 || n == 124 || n == 126

/-- Model of `http::Method`: the nine methods the `http` crate knows by
name, plus extension methods for any other valid token. -/
inductive MethodV where
  | GET | POST | PUT | DELETE | HEAD | PATCH | OPTIONS | CONNECT | TRACE
  | extMethod (s : String)
deriving DecidableEq

/-- Modelled from the library: `http::Method::from_bytes`
(client.rs:398 `Method::from_bytes(config.method.as_bytes())`). Exact
byte-for-byte match against the nine standard method names; any other
nonempty all-token-character string becomes an extension method; anything
else is the library's invalid-method parse error, whose message is not the
repository's "Unknown HTTP method" text. -/
def methodFromBytes (s : String) : Except String MethodV :=
  if s = "GET" then .ok .GET
  else if s = "PUT" then .ok .PUT
  else if s = "POST" then .ok .POST
  else if s = "HEAD" then .ok .HEAD
  else if s = "PATCH" then .ok .PATCH
  else if s = "TRACE" then .ok .TRACE
  else if s = "DELETE" then .ok .DELETE
  else if s = "OPTIONS" then .ok .OPTIONS
  else if s = "CONNECT" then .ok .CONNECT
  else if 0 < s.length ∧ s.toList.all isTokenChar then .ok (.extMethod s)
  else .error "invalid method"

/-- Model of `create_request_builder` (client.rs:408-424): only the six
methods of the match arms are accepted; everything else — including the
other standard methods and all extension methods — is the
`ERROR_UNKNOWN_METHOD` failure (client.rs:50). -/
def create_request_builder : MethodV → Except String Unit
  | .GET => .ok ()
  | .POST => .ok ()
  | .PUT => .ok ()
  | .DELETE => .ok ()
  | .HEAD => .ok ()
  | .PATCH => .ok ()
  | _ => .error "Unknown HTTP method"

/-! ## Header machinery and the verbose request trace
(client.rs `create_http_client`, `setup_default_headers`,
`apply_authentication`, `apply_request_body`, `display_request_info`) -/

/-- UTF-8 encoding of one character, as the list of its byte values. -/
def utf8Bytes (c : Char) : List Nat :=
  let n := c.toNat
  if n < 128 then [n]
  else if n < 2048 then [192 + n / 64, 128 + n % 64]
  else if n < 65536 then [224 + n / 4096, 128 + (n / 64) % 64, 128 + n % 64]
  else [240 + n / 262144, 128 + (n / 4096) % 64, 128 + (n / 64) % 64, 128 + n % 64]

/-- UTF-8 encoding of a character sequence. -/
def utf8Encode : List Char → List Nat
  | [] => []
  | c :: cs => utf8Bytes c ++ utf8Encode cs

/-- Character of one 6-bit group in the standard base64 alphabet
(`A-Z`, `a-z`, `0-9`, plus sign, slash). -/
def base64Char (n : Nat) : Char :=
  if n < 26 then Char.ofNat (65 + n)
  else if n < 52 then Char.ofNat (97 + (n - 26))
  else if n < 62 then Char.ofNat (48 + (n - 52))
  else if n = 62 then Char.ofNat 43
  else Char.ofNat 47

/-- Standard base64 with padding, three input bytes per four output
characters. -/
def base64EncodeList : List Nat → List Char
  | [] => []
  | [b1] => [base64Char (b1 / 4), base64Char (b1 % 4 * 16), '=', '=']
  | [b1, b2] =>
    [base64Char (b1 / 4), base64Char (b1 % 4 * 16 + b2 / 16),
     base64Char (b2 % 16 * 4), '=']
  | b1 :: b2 :: b3 :: rest =>
    base64Char (b1 / 4) :: base64Char (b1 % 4 * 16 + b2 / 16) ::
    base64Char (b2 % 16 * 4 + b3 / 64) :: base64Char (b3 % 64) ::
    base64EncodeList rest

/-- Modelled from the library: the header value
`reqwest::blocking::RequestBuilder::basic_auth` attaches — the string
`Basic` followed by a space and the standard base64 encoding of
`user:pass`. -/
def basicAuthHeaderValue (user pass : String) : String :=
  "Basic " ++ String.mk (base64EncodeList (utf8Encode (user ++ ":" ++ pass).toList))

/-- Model of `http::HeaderMap` as an association list in insertion order;
`insert` on an existing key replaces the value in place. -/
def headerInsert (m : List (String × String)) (key value : String) :
    List (String × String) :=
  if m.any (fun p => p.1 == key) then
    m.map (fun p => if p.1 == key then (key, value) else p)
  else m ++ [(key, value)]

/-- Key membership in the header-map model (`HeaderMap::contains_key`). -/
def headerContains (m : List (String × String)) (key : String) : Bool :=
  m.any (fun p => p.1 == key)

/-- Modelled from the library: `http::HeaderName::from_bytes` — a nonempty
all-token-character name, normalised to ASCII lowercase. -/
def headerNameFromBytes (s : String) : Option String :=
  if 0 < s.length ∧ s.toList.all isTokenChar then
    some (String.mk (s.toList.map Char.toLower))
  else none

/-- Modelled from the library: validity test of
`http::HeaderValue::from_str` — every byte is tab or printable
(at least 32 and not 127). -/
def headerValueOk (s : String) : Bool :=
  (utf8Encode s.toList).all (fun b => b == 9 || (32 ≤ b && b ≠ 127))

/-- Split on the first colon, Rust `str::split_once(':')`. -/
def splitOnceColon (s : String) : Option (String × String) :=
  match s.toList.findIdx? (· == ':') with
  | some i => some (String.mk (s.toList.take i), String.mk (s.toList.drop (i + 1)))
  | none => none

/-- Model of the default-header set assembled by `create_http_client`
(client.rs:306-321) and `setup_default_headers` (client.rs:362-394): the
user agent, then each well-formed `Name: Value` entry of `config.headers`
(split on the first colon, name a valid header name, value trimmed and a
valid header value; malformed entries silently skipped). -/
def default_headers_of (cfg : Config) : List (String × String) :=
  let dh := [("user-agent", "rs-w3r/1.0")]
  match cfg.headers with
  | none => dh
  | some entries =>
    entries.foldl (fun acc entry =>
      match splitOnceColon entry with
      | none => acc
      | some (key, value) =>
        match headerNameFromBytes key with
        | none => acc
        | some name =>
          let v := String.mk (rustTrim value.toList)
          if headerValueOk v then headerInsert acc name v else acc) dh

/-- Model of the headers carried by the built request object
(client.rs:397-405 `build_request`): `apply_authentication`
(client.rs:427-436) attaches the real basic-auth credential as the
`authorization` header, and `apply_request_body` (client.rs:439-459)
attaches a `content-type` header for whichever body variant applies first
(raw form body, then form fields, then JSON). Client default headers are
attached by the transport at send time, not stored on the request. -/
def request_headers_of (cfg : Config) : List (String × String) :=
  let h := ([] : List (String × String))
  let h := match cfg.basic_auth with
    | some auth => headerInsert h "authorization" (basicAuthHeaderValue auth.user auth.pass)
    | none => h
  match cfg.form_data, cfg.form, cfg.json with
  | some _, _, _ => headerInsert h "content-type" "application/x-www-form-urlencoded"
  | none, some _, _ => headerInsert h "content-type" "application/x-www-form-urlencoded"
  | none, none, some _ => headerInsert h "content-type" "application/json; charset=utf-8"
  | none, none, none => h

/-- Placeholder the source displays for the authorization default header
(client.rs:41 `BASIC_AUTH_PLACEHOLDER`). -/
def BASIC_AUTH_PLACEHOLDER : String := "Basic <credentials>"

/-- Model of `display_request_info` (client.rs:474-497): in verbose mode,
the request line, one line per default header — the authorization name
redacted to the placeholder there — then one line per request header whose
name is not among the default headers, printed with its real value, then a
blank line. Returns the printed lines; non-verbose mode prints nothing. -/
def display_request_info (cfg : Config) : List String :=
  if !cfg.verbose then []
  else
    let dh := default_headers_of cfg
    let rh := request_headers_of cfg
    ("> " ++ cfg.method ++ " " ++ cfg.url) ::
    (dh.map (fun p =>
      let displayValue := if p.1 == "authorization" then BASIC_AUTH_PLACEHOLDER else p.2
      "> " ++ p.1 ++ ": " ++ displayValue)
    ++ (rh.filter (fun p => !headerContains dh p.1)).map
        (fun p => "> " ++ p.1 ++ ": " ++ p.2)
    ++ [""])

/-- Model of `build_request` (client.rs:397-405): parse the method, run it
through `create_request_builder` (which rejects everything but the six
supported methods), then assemble the request with its headers. -/
def build_request (cfg : Config) : Except String (List (String × String)) := do
  let m ← methodFromBytes cfg.method
  let _ ← create_request_builder m
  .ok (request_headers_of cfg)

/-- Model of `execute_request` (client.rs:273-291) reduced to its control
flow: building the request happens before any network activity; a build
failure aborts with zero attempts; dry-run stops before the retry engine
(`none` result); otherwise the retry engine runs and a terminal transport
failure is propagated as the invocation's error. The first component
counts network attempts performed. -/
def execute_request (cfg : Config) (oracle : Nat → AttemptOutcome) :
    Nat × Except String (Option RetryResult) :=
  match build_request cfg with
  | .error e => (0, .error e)
  | .ok _ =>
    if cfg.dry_run then (0, .ok none)
    else
      match (execute_request_with_retry oracle cfg.retry cfg.retry_delay).2 with
      | .done s n => (n, .ok (some (.done s n)))
      | .failed msg n => (n, .error msg)

/-! ## Response pipeline (client.rs `format_response_body`,
`output_response`, `handle_response`) -/

/-- Model of `format_response_body` (client.rs:683-702), parameterised over
the external serde_json collaborators: `fromStr` stands for
`serde_json::from_str::<Value>`, `toStr` for `serde_json::to_string` and
`toStrPretty` for `serde_json::to_string_pretty` (both total on `Value`).
A parse failure passes the raw body through unchanged; otherwise the
optional filter path is applied and the result serialised, pretty or
compact. -/
def format_response_body (fromStr : String → Except String Value)
    (toStr toStrPretty : Value → String) (body : String) (cfg : Config) :
    Except String String :=
  match fromStr body with
  | .error _ => .ok body
  | .ok v => do
    let result ← match cfg.json_filter with
      | some filterPath => extract_json_path v filterPath
      | none => .ok v
    .ok (if cfg.pretty_json then toStrPretty result else toStr result)

/-- Destination of the processed body: a named file (written the bytes
verbatim), standard output, or nowhere. -/
inductive SinkAction where
  | writeFile (path : String) (data : String)
  | printStdout (data : String)
  | discard
deriving DecidableEq

/-- Model of `output_response` (client.rs:746-755) with
`save_response_to_file` (client.rs:758-762): an output target always
receives the processed body as bytes; with no target the body goes to
standard output unless silent, in which case it goes nowhere. -/
def output_response (processedResponse : String) (cfg : Config) : SinkAction :=
  match cfg.output with
  | some outputFile => .writeFile outputFile processedResponse
  | none => if !cfg.silent then .printStdout processedResponse else .discard

/-- Model of `handle_response` (client.rs:606-619) restricted to the body
path: the processed body is computed first, unconditionally, and then
routed. -/
def handle_response (fromStr : String → Except String Value)
    (toStr toStrPretty : Value → String) (body : String) (cfg : Config) :
    Except String SinkAction :=
  (format_response_body fromStr toStr toStrPretty body cfg).map
    (fun processed => output_response processed cfg)

/-! ## Concrete configurations used to evaluate the verbose trace -/

/-- Verbose configuration with basic-auth credentials: user `u` and the
given password, no custom headers, default method, a fixed URL. -/
def traceCfg (pw : String) : Config :=
  { Config.default with
      verbose := true
      url := "http://example.com"
      basic_auth := some (BasicAuthConfig.mk "u" pw) }

/-! # Theorems -/

/-- Every branch of the segment evaluator returns `Ok`. -/
theorem process_json_path_part_isOk (j : Value) (part : String) :
    ∃ v, process_json_path_part j part = .ok v := by
  unfold process_json_path_part
  repeat' first | exact ⟨_, rfl⟩ | split | dsimp only

/-- Folding the segment evaluator over any segment list returns `Ok`. -/
theorem foldlM_process_isOk (parts : List (List Char)) (j : Value) :
    ∃ v, parts.foldlM (fun a part => process_json_path_part a (String.mk part)) j = .ok v := by
  induction parts generalizing j with
  | nil => exact ⟨j, rfl⟩
  | cons hd tl ih =>
    obtain ⟨v', hv⟩ := process_json_path_part_isOk j (String.mk hd)
    rw [List.foldlM_cons, hv]
    obtain ⟨v, hfold⟩ := ih v'
    exact ⟨v, by simpa using hfold⟩

/-- The whole path query returns `Ok` on every value and every path. -/
theorem extract_json_path_isOk (j : Value) (p : String) :
    ∃ v, extract_json_path j p = .ok v := by
  unfold extract_json_path
  dsimp only
  split
  · exact ⟨j, rfl⟩
  · exact foldlM_process_isOk _ j

/-- Every segment applied to null yields null. -/
theorem process_json_path_part_null (part : String) :
    process_json_path_part .null part = .ok .null := by
  unfold process_json_path_part
  repeat' first | rfl | split | dsimp only

/-- C5: path-query evaluation never returns an error, for any parsed JSON
value and any path string; segments applied to null yield null, so
evaluation continues left-to-right instead of short-circuiting; a missing
key at any depth yields null (object `a ↦ 1` under path `a.b.c`), and an
out-of-range array index yields null (`items[1]` with a one-element
`items`) while an in-range one selects the element. -/
theorem path_query_null_safe :
    (∀ (j : Value) (p : String), ∃ v, extract_json_path j p = .ok v) ∧
    (∀ part : String, process_json_path_part .null part = .ok .null) ∧
    extract_json_path (.obj [("a", .num 1)]) "a.b.c" = .ok .null ∧
    extract_json_path (.obj [("items", .arr [.str "x", .str "y", .str "z"])]) "items[1]"
      = .ok (.str "y") ∧
    extract_json_path (.obj [("items", .arr [.str "x"])]) "items[1]" = .ok .null :=
  ⟨extract_json_path_isOk, process_json_path_part_null, rfl, rfl, rfl⟩

/-- C9: the path query `.` evaluates to the root value unchanged, for
every JSON value (identity law of the evaluator). -/
theorem path_root_identity (v : Value) : extract_json_path v "." = .ok v := rfl

/-- C10: a segment containing `[` whose bracketed part has no closing `]`
or does not parse as a `usize` index is looked up whole as a literal field
name; in particular the path `a[x]` on the object with the literal key
`a[x]` evaluates to that key's value `1`, not null. -/
theorem bracket_segment_fallback (j : Value) (part : String) (b : Nat)
    (hb : part.toList.findIdx? (· == '[') = some b)
    (hbad : (part.toList.drop (b + 1)).findIdx? (· == ']') = none ∨
      ∃ c, (part.toList.drop (b + 1)).findIdx? (· == ']') = some c ∧
        parseUsize ((part.toList.drop (b + 1)).take c) = none) :
    process_json_path_part j part = .ok ((j.getField part).getD .null) ∧
    extract_json_path (.obj [("a[x]", .num 1)]) "a[x]" = .ok (.num 1) := by
  constructor
  · unfold process_json_path_part
    rw [hb]
    dsimp only
    rcases hbad with h | ⟨c, hc, hp⟩
    · rw [h]
    · rw [hc]
      dsimp only
      rw [hp]
  · rfl

/-- C10 witness: the fallback evaluated at the concrete segment `k[`
(a bracket with no closing bracket) on an object with the literal key
`k[`. -/
theorem bracket_segment_fallback_witness :
    process_json_path_part (.obj [("k[", .num 2)]) "k[" = .ok (.num 2) := by
  have h := bracket_segment_fallback (.obj [("k[", .num 2)]) "k[" 1 rfl (.inl rfl)
  rw [h.1]
  rfl

/-- When every attempt's outcome is retryable, the loop started after
`p` attempts with `maxA = p + k + 1` runs to the attempt cap and sleeps
one exponentially growing delay per retried attempt. -/
theorem retryLoop_all_retryable (oracle : Nat → AttemptOutcome) (d : ℚ)
    (hall : ∀ n, retryableOutcome (oracle n) = true) :
    ∀ (k p : Nat) (acc : List ℚ) (maxA : Nat), maxA = p + k + 1 →
      (retryLoop oracle maxA d p acc).1
          = acc ++ (List.range' p k).map (fun i => d * 2 ^ i) ∧
      (retryLoop oracle maxA d p acc).2.attempts = maxA := by
  intro k
  induction k with
  | zero =>
    intro p acc maxA hm
    unfold retryLoop
    cases ho : oracle (p + 1) with
    | response status =>
      dsimp only
      rw [dif_neg (by rintro ⟨-, hlt⟩; omega)]
      exact ⟨by simp, by simp [RetryResult.attempts]; omega⟩
    | transportError msg =>
      dsimp only
      rw [dif_neg (by omega)]
      exact ⟨by simp, by simp [RetryResult.attempts]; omega⟩
  | succ n ih =>
    intro p acc maxA hm
    unfold retryLoop
    cases ho : oracle (p + 1) with
    | response status =>
      have hr : should_retry_for_status status = true := by
        have h := hall (p + 1); rw [ho] at h; exact h
      dsimp only
      rw [dif_pos ⟨hr, by omega⟩]
      have h2 := ih (p + 1) (acc ++ [d * 2 ^ p]) maxA (by omega)
      refine ⟨?_, h2.2⟩
      rw [h2.1, List.range'_succ]
      simp
    | transportError msg =>
      dsimp only
      rw [dif_pos (by omega)]
      have h2 := ih (p + 1) (acc ++ [d * 2 ^ p]) maxA (by omega)
      refine ⟨?_, h2.2⟩
      rw [h2.1, List.range'_succ]
      simp

/-- C3: for every `retries = r`, when every attempt yields a retryable
outcome — a retryable status such as 503 or a transport error alike — the
engine performs exactly `r + 1` attempts, and the slept backoff delays are
`base * 2 ^ 0, base * 2 ^ 1, …` — before attempt `n + 1` the delay is
`base * 2 ^ (n - 1)` for `n` the 1-indexed attempts already made — a list
of length `r`. -/
theorem retry_attempt_count_and_backoff (oracle : Nat → AttemptOutcome) (r : Nat) (d : ℚ)
    (hall : ∀ n, retryableOutcome (oracle n) = true) :
    (execute_request_with_retry oracle r d).2.attempts = r + 1 ∧
    (execute_request_with_retry oracle r d).1
      = (List.range r).map (fun i => d * 2 ^ i) := by
  have h := retryLoop_all_retryable oracle d hall r 0 [] (r + 1) (by omega)
  unfold execute_request_with_retry
  refine ⟨h.2, ?_⟩
  rw [h.1, List.range_eq_range']
  simp

/-- C3 witness: a server answering 503 on every attempt with three retries
and base delay one second — four attempts, delays 1, 2, 4. -/
theorem retry_attempt_count_and_backoff_witness :
    (execute_request_with_retry (fun _ => .response 503) 3 1).2.attempts = 4 ∧
    (execute_request_with_retry (fun _ => .response 503) 3 1).1 = [1, 2, 4] := by
  have h := retry_attempt_count_and_backoff (fun _ => .response 503) 3 1 (fun _ => rfl)
  refine ⟨h.1, ?_⟩
  rw [h.2]
  norm_num [List.range_succ]

/-- C4: a status is classified retryable exactly when it lies in 500-599
or equals 429 or 408; on any non-retryable first status the engine makes
exactly one attempt, sleeping no delay, and that first response is the
terminal result, whatever the configured retry count. -/
theorem status_classification_and_single_attempt :
    (∀ s : Nat, should_retry_for_status s = true ↔ ((500 ≤ s ∧ s ≤ 599) ∨ s = 429 ∨ s = 408)) ∧
    (∀ (oracle : Nat → AttemptOutcome) (r : Nat) (d : ℚ) (s : Nat),
      oracle 1 = .response s → should_retry_for_status s = false →
      (execute_request_with_retry oracle r d).2 = .done s 1 ∧
      (execute_request_with_retry oracle r d).1 = []) := by
  constructor
  · intro s
    simp [should_retry_for_status]
    tauto
  · intro oracle r d s h1 hs
    unfold execute_request_with_retry retryLoop
    rw [show (0 : Nat) + 1 = 1 from rfl, h1]
    dsimp only
    rw [dif_neg (by rw [hs]; rintro ⟨h, -⟩; exact Bool.noConfusion h)]
    exact ⟨rfl, rfl⟩

/-- C4 witness: status 404 is terminal on the first attempt even with five
retries configured. -/
theorem status_classification_witness :
    (execute_request_with_retry (fun _ => .response 404) 5 1).2 = .done 404 1 :=
  (status_classification_and_single_attempt.2 (fun _ => .response 404) 5 1 404 rfl rfl).1

/-- C6: a response body that the JSON parser rejects is passed through the
pipeline byte-identical, for every configuration — the path filter and
pretty-printing are not applied to non-JSON bodies even when both flags
request them. -/
theorem non_json_body_passthrough (fromStr : String → Except String Value)
    (toStr toStrPretty : Value → String) (body : String) (cfg : Config)
    (e : String) (hparse : fromStr body = .error e) :
    format_response_body fromStr toStr toStrPretty body cfg = .ok body := by
  unfold format_response_body
  rw [hparse]

/-- C6 witness: the body `hello world` with a failing parse, pretty
printing on and a filter path set comes back unchanged. -/
theorem non_json_body_passthrough_witness :
    format_response_body (fun _ => .error "expected value") (fun _ => "s") (fun _ => "t")
      "hello world"
      { Config.default with
          pretty_json := true
          json_filter := some "a.b" }
      = .ok "hello world" :=
  non_json_body_passthrough _ _ _ "hello world" _ "expected value" rfl

/-- C8: the processed body is computed first and then routed — with an
output target named it is written to that target whatever the silent flag;
with no target and silent off it is printed to standard output; with no
target and silent on it is discarded. -/
theorem output_routing (fromStr : String → Except String Value)
    (toStr toStrPretty : Value → String) (body : String) (cfg : Config)
    (processed : String)
    (hfmt : format_response_body fromStr toStr toStrPretty body cfg = .ok processed) :
    (∀ f, cfg.output = some f →
      handle_response fromStr toStr toStrPretty body cfg = .ok (.writeFile f processed)) ∧
    (cfg.output = none → cfg.silent = false →
      handle_response fromStr toStr toStrPretty body cfg = .ok (.printStdout processed)) ∧
    (cfg.output = none → cfg.silent = true →
      handle_response fromStr toStr toStrPretty body cfg = .ok .discard) := by
  unfold handle_response output_response
  rw [hfmt]
  refine ⟨fun f hf => ?_, fun ho hs => ?_, fun ho hs => ?_⟩
  · rw [hf]
    rfl
  · rw [ho, hs]
    rfl
  · rw [ho, hs]
    rfl

/-- C8 witness: silent on with no output target discards the computed
body. -/
theorem output_routing_witness :
    handle_response (fun _ => .error "e") (fun _ => "s") (fun _ => "t") "body"
      { Config.default with silent := true } = .ok .discard := by
  have h := output_routing (fun _ => .error "e") (fun _ => "s") (fun _ => "t") "body"
    { Config.default with silent := true } "body" rfl
  exact h.2.2 rfl rfl

/-- Authentication overrides never touch the method field. -/
theorem apply_auth_config_method (cfg : Config) (args : ArgsModel) :
    (apply_auth_config cfg args).method = cfg.method := by
  unfold apply_auth_config
  repeat' first | rfl | split

/-- Data overrides never touch the method field. -/
theorem apply_data_config_method (cfg : Config) (args : ArgsModel) :
    (apply_data_config cfg args).method = cfg.method := by
  unfold apply_data_config
  repeat' first | rfl | split

/-- The request-options pass overrides the method exactly when the parsed
invocation method differs from the built-in default. -/
theorem apply_request_config_method (cfg : Config) (args : ArgsModel) :
    (apply_request_config cfg args).method
      = if args.method ≠ DEFAULT_METHOD then args.method else cfg.method := by
  unfold apply_request_config
  repeat' first | rfl | split

/-- Proxy overrides never touch the method field. -/
theorem apply_proxy_config_method (cfg : Config) (args : ArgsModel) :
    (apply_proxy_config cfg args).method = cfg.method := by
  unfold apply_proxy_config
  repeat' first | rfl | split

/-- Output overrides never touch the method field. -/
theorem apply_output_config_method (cfg : Config) (args : ArgsModel) :
    (apply_output_config cfg args).method = cfg.method := by
  unfold apply_output_config
  repeat' first | rfl | split

/-- Retry overrides never touch the method field. -/
theorem apply_retry_config_method (cfg : Config) (args : ArgsModel) :
    (apply_retry_config cfg args).method = cfg.method := by
  unfold apply_retry_config
  repeat' first | rfl | split

/-- Flag overrides never touch the method field. -/
theorem apply_flags_method (cfg : Config) (args : ArgsModel) :
    (apply_flags cfg args).method = cfg.method := by
  unfold apply_flags
  repeat' first | rfl | split

/-- The effective method after the full merge: the invocation value when it
differs from the built-in default, otherwise the preset value, otherwise
the built-in default. -/
theorem merged_method (preset : ConfigPreset) (args : ArgsModel) :
    (apply_args_to_config (create_config_from_preset preset) args).method
      = if args.method ≠ DEFAULT_METHOD then args.method
        else preset.method.getD DEFAULT_METHOD := by
  unfold apply_args_to_config
  rw [apply_flags_method, apply_retry_config_method, apply_output_config_method,
      apply_proxy_config_method, apply_request_config_method, apply_data_config_method,
      apply_auth_config_method]
  rfl

/-- C2 counterexample: with a preset setting method POST, an invocation
whose parsed method value is GET — which is what clap hands the program
both when no method flag is given and when the method flag is passed
explicitly with the value GET, since the flag carries GET as its
`default_value` — the effective method is POST, not GET: an explicit
`--method GET` cannot override a preset POST, contradicting the claim that
the explicitly passed GET wins. -/
theorem method_explicit_default_does_not_override :
    (apply_args_to_config (create_config_from_preset { method := some "POST" }) {}).method
        = "POST" ∧
    (apply_args_to_config (create_config_from_preset { method := some "POST" }) {}).method
        ≠ "GET" := by
  constructor
  · rfl
  · intro h
    have h2 : ("POST" : String) = "GET" := by
      rw [← h]
      rfl
    exact absurd h2 (by decide)

/-- C2 amended: an invocation-time method value overrides the preset value
only when it differs from the built-in default GET (so with a preset
setting POST and no method flag the effective method is POST, and a
non-default invocation method always wins); an invocation method equal to
the default — explicitly passed or omitted, the program cannot tell —
leaves the preset value (or, absent one, the built-in default) in
force. -/
theorem method_precedence (preset : ConfigPreset) (args : ArgsModel) :
    (args.method = DEFAULT_METHOD →
      (apply_args_to_config (create_config_from_preset preset) args).method
        = preset.method.getD DEFAULT_METHOD) ∧
    (args.method ≠ DEFAULT_METHOD →
      (apply_args_to_config (create_config_from_preset preset) args).method = args.method) := by
  constructor
  · intro h
    rw [merged_method, if_neg (by simp [h])]
  · intro h
    rw [merged_method, if_pos h]

/-- C2 witness: preset POST with parsed method GET yields POST; preset
POST with parsed method PUT yields PUT. -/
theorem method_precedence_witness :
    (apply_args_to_config (create_config_from_preset { method := some "POST" })
        { method := "GET" }).method = "POST" ∧
    (apply_args_to_config (create_config_from_preset { method := some "POST" })
        { method := "PUT" }).method = "PUT" :=
  ⟨(method_precedence { method := some "POST" } { method := "GET" }).1 rfl,
   (method_precedence { method := some "POST" } { method := "PUT" }).2 (by decide)⟩

/-- Building a request with a method outside the six supported ones always
fails: with the repository's unknown-method error, or — when the string is
not even a valid method token — with the method parse error of the http
library. -/
theorem build_request_unsupported (cfg : Config)
    (h : cfg.method ∉ (["GET", "POST", "PUT", "DELETE", "HEAD", "PATCH"] : List String)) :
    build_request cfg = .error "Unknown HTTP method"
      ∨ build_request cfg = .error "invalid method" := by
  simp only [List.mem_cons, List.not_mem_nil, or_false, not_or] at h
  obtain ⟨h1, h2, h3, h4, h5, h6⟩ := h
  unfold build_request methodFromBytes
  split_ifs with hTRACE hOPTIONS hCONNECT htoken
  · exact Or.inl rfl
  · exact Or.inl rfl
  · exact Or.inl rfl
  · exact Or.inl rfl
  · exact Or.inr rfl

/-- A valid method token outside the six supported methods produces
exactly the repository's unknown-method error. -/
theorem build_request_unsupported_token (cfg : Config)
    (h : cfg.method ∉ (["GET", "POST", "PUT", "DELETE", "HEAD", "PATCH"] : List String))
    (ht : 0 < cfg.method.length ∧ cfg.method.toList.all isTokenChar) :
    build_request cfg = .error "Unknown HTTP method" := by
  simp only [List.mem_cons, List.not_mem_nil, or_false, not_or] at h
  obtain ⟨h1, h2, h3, h4, h5, h6⟩ := h
  unfold build_request methodFromBytes
  split_ifs with hTRACE hOPTIONS hCONNECT
  · rfl
  · rfl
  · rfl
  · rfl

/-- C7 amended: for every method string outside GET, POST, PUT, DELETE,
HEAD, PATCH, request building fails before any network attempt — zero
attempts are made, no retry, the invocation errors out; the error is the
repository's "unknown method" error exactly when the string is a valid
HTTP method token (including lowercase spellings and the other standard
methods), while a string that is not a valid token fails earlier, in
method parsing, with the http library's parse error instead. -/
theorem unsupported_method_fails_preflight (cfg : Config) (oracle : Nat → AttemptOutcome)
    (h : cfg.method ∉ (["GET", "POST", "PUT", "DELETE", "HEAD", "PATCH"] : List String)) :
    (∃ e, build_request cfg = .error e) ∧
    (execute_request cfg oracle).1 = 0 ∧
    (∃ e, (execute_request cfg oracle).2 = .error e) ∧
    (0 < cfg.method.length ∧ cfg.method.toList.all isTokenChar →
      build_request cfg = .error "Unknown HTTP method") := by
  have hb : ∃ e, build_request cfg = .error e := by
    rcases build_request_unsupported cfg h with hb | hb
    · exact ⟨_, hb⟩
    · exact ⟨_, hb⟩
  obtain ⟨e, he⟩ := hb
  refine ⟨⟨e, he⟩, ?_, ?_, fun ht => build_request_unsupported_token cfg h ht⟩
  · unfold execute_request
    rw [he]
  · unfold execute_request
    rw [he]
    exact ⟨e, rfl⟩

/-- C7 witness: the (valid-token) method string FOO fails with the
unknown-method error and zero attempts. -/
theorem unsupported_method_fails_preflight_witness :
    build_request
      { Config.default with
          method := "FOO"
          url := "http://x" } = .error "Unknown HTTP method" := by
  have h := unsupported_method_fails_preflight
    { Config.default with
        method := "FOO"
        url := "http://x" }
    (fun _ => .response 200) (by decide)
  exact h.2.2.2 (by decide)

/-- C7 counterexample: the empty method string is outside the six
supported methods, yet request building fails with the http library's
method parse error, not an "unknown method" error — the claim's error
description does not hold for method strings that are not valid tokens. -/
theorem empty_method_error_is_not_unknown_method :
    build_request
      { Config.default with
          method := ""
          url := "http://x" } = .error "invalid method" ∧
    ("invalid method" : String) ≠ "Unknown HTTP method" := ⟨rfl, by decide⟩

/-- C1 (refuted — code bug): in verbose mode with basic-auth credentials
user `u`, password `p`, the rendered request trace contains the line
`> authorization: Basic dTpw` — `dTpw` is the base64 of `u:p`, the real
credential — and contains no placeholder-redacted authorization line; and
two configurations differing only in the password produce different
traces. The redaction of `display_request_info` (client.rs:482-484) is
applied only to the default-header loop, which never carries the
basic-auth header: `apply_authentication` (client.rs:427-436) attaches the
credential to the request itself, whose headers are printed verbatim in
the second loop (client.rs:490-494). -/
theorem basic_auth_credential_leak :
    display_request_info (traceCfg "p") =
      ["> GET http://example.com", "> user-agent: rs-w3r/1.0",
       "> authorization: Basic dTpw", ""] ∧
    ("> authorization: " ++ BASIC_AUTH_PLACEHOLDER) ∉ display_request_info (traceCfg "p") ∧
    display_request_info (traceCfg "p") ≠ display_request_info (traceCfg "q") := by
  refine ⟨by decide, by decide, by decide⟩

end W3r
